import Mathlib

/-!
# cpp-timer: the countdown timer of `src/timer_impl.cpp`

A shallow embedding of the live code of `timer_impl.cpp` (the block headed
"Attempt 5", lines 166-191; the four earlier attempts are commented out).

* `time_remaining_` is an `int32_t`; it is an `Int` here and the decrement
  `time_remaining_--` goes through `wrap32` (two's complement wrap-around; in
  C++ the decrement of `INT32_MIN` is undefined, the wrap is the usual
  behaviour of the hardware).
* `io_service_` is the queue of handlers that are ready to run; `post` appends
  to it.
* `timer_` is the `deadline_timer`: its expiry time and the handlers waiting
  for it.  Time is a logical clock counting whole seconds since construction.
* the listener is an external object; every call made on it is recorded, in
  order, in `trace`, together with the other side effects of the code.
* the thread started by `StartTimer` executes `io_service_.run()`, which is
  the loop `step` / `run` below.  That thread runs concurrently with the
  caller: `StartTimer` is the state in which the loop thread starts, and
  `StartTimer_return k` is a state in which the call returns, the loop thread
  having completed `k` iterations by then.
-/

namespace cpptimer

/-- The two calls of the `TimerListener` interface. -/
inductive Event where
  | TimerTicked (secondsRemaining : Int)
  | TimerEnded
  deriving DecidableEq, Repr

/-- The handlers the code hands to the `io_service`: the only one is
`boost::bind(&TimerImpl::TimerTick, this)`. -/
inductive Handler where
  | TimerTick
  deriving DecidableEq, Repr

/-- The side effects of the code, one constructor per statement kind. -/
inductive Effect where
  /-- a write of `v` to `time_remaining_` -/
  | store (v : Int)
  /-- `io_service_.post(h)` -/
  | post (h : Handler)
  /-- `boost::thread th([&] { io_service_.run(); })` -/
  | thread_run
  /-- the line written to `std::cout`, with the number it prints -/
  | cout (v : Int)
  /-- `timer_.expires_from_now(boost::posix_time::seconds(secs))` -/
  | expires_from_now (secs : Nat)
  /-- `timer_.async_wait(h)` -/
  | async_wait (h : Handler)
  /-- a call on `listener_` -/
  | listener (e : Event)
  deriving DecidableEq, Repr

/-- The `boost::asio::io_service`: the handlers ready to be run, oldest first. -/
structure IoService where
  ready : List Handler
  deriving DecidableEq, Repr

/-- The `boost::asio::deadline_timer`: its expiry (seconds on the logical
clock) and the handlers of the outstanding `async_wait`s. -/
structure DeadlineTimer where
  expiry : Nat
  waits : List Handler
  deriving DecidableEq, Repr

/-- The state of a `TimerImpl` object and of its surroundings. -/
structure TimerImpl where
  /-- `int32_t time_remaining_` -/
  time_remaining_ : Int
  /-- `boost::asio::io_service io_service_` -/
  io_service_ : IoService
  /-- `boost::asio::deadline_timer timer_` -/
  timer_ : DeadlineTimer
  /-- seconds elapsed on the logical clock -/
  now : Nat
  /-- every side effect so far, oldest first -/
  trace : List Effect
  deriving DecidableEq, Repr

/-- Two's complement reduction to the range of `int32_t`. -/
def wrap32 (x : Int) : Int := (x + 2 ^ 31) % 2 ^ 32 - 2 ^ 31

/-- The calls received by the listener, oldest first. -/
def delivered (s : TimerImpl) : List Event :=
  s.trace.filterMap fun
    | Effect.listener e => some e
    | _ => none

/-- The number of tick-handler registrations that are pending: handlers posted
and not yet run, plus outstanding waits on the deadline timer. -/
def pending (s : TimerImpl) : Nat :=
  s.io_service_.ready.length + s.timer_.waits.length

/-- The constructor `TimerImpl::TimerImpl(listener)`: `timer_` is built with an
expiry one second after construction, nothing waits on it, nothing is posted.
The constructor does not initialise `time_remaining_`; `uninit` is whatever
value it happens to hold. -/
def TimerImpl.create (uninit : Int) : TimerImpl :=
  { time_remaining_ := uninit
    io_service_ := { ready := [] }
    timer_ := { expiry := 1, waits := [] }
    now := 0
    trace := [] }

/-- The assignment `time_remaining_ = v`. -/
def store (v : Int) (s : TimerImpl) : TimerImpl :=
  { s with time_remaining_ := v, trace := s.trace ++ [Effect.store v] }

/-- The call `io_service_.post(h)`: the handler is queued, ready to run. -/
def post (h : Handler) (s : TimerImpl) : TimerImpl :=
  { s with
    io_service_ := { ready := s.io_service_.ready ++ [h] }
    trace := s.trace ++ [Effect.post h] }

/-- The statement `boost::thread th([&] { io_service_.run(); })`, as executed
by the calling thread: the loop is started on a thread of its own and the
calling thread runs no handler.  The iterations of the loop are `step`s taken
from the state this leaves; they run concurrently with the caller, so any
number of them may be over when `StartTimer` returns (`StartTimer_return`). -/
def thread_run (s : TimerImpl) : TimerImpl :=
  { s with trace := s.trace ++ [Effect.thread_run] }

/-- The statement `std::cout << ... << time_remaining_ << ...`. -/
def cout (s : TimerImpl) : TimerImpl :=
  { s with trace := s.trace ++ [Effect.cout s.time_remaining_] }

/-- The call `timer_.expires_from_now(seconds(secs))`: the expiry is set
relative to the current time, and the outstanding waits are cancelled: their
handlers become ready (they are bound with `boost::bind`, which drops the error
code, so a cancelled handler runs like a fired one). -/
def expires_from_now (secs : Nat) (s : TimerImpl) : TimerImpl :=
  { s with
    io_service_ := { ready := s.io_service_.ready ++ s.timer_.waits }
    timer_ := { expiry := s.now + secs, waits := [] }
    trace := s.trace ++ [Effect.expires_from_now secs] }

/-- The call `timer_.async_wait(h)`. -/
def async_wait (h : Handler) (s : TimerImpl) : TimerImpl :=
  { s with
    timer_ := { s.timer_ with waits := s.timer_.waits ++ [h] }
    trace := s.trace ++ [Effect.async_wait h] }

/-- A call `listener_->...`. -/
def notify (e : Event) (s : TimerImpl) : TimerImpl :=
  { s with trace := s.trace ++ [Effect.listener e] }

/-- The method `TimerImpl::StartTimer(int32_t seconds)` (lines 171-179): the
three statements executed by the calling thread.  The result is the state in
which the loop thread starts; it is the state at the return of the call only
when the loop thread has not completed an iteration by then. -/
def StartTimer (seconds : Int) (s : TimerImpl) : TimerImpl :=
  thread_run (post Handler.TimerTick (store seconds s))

/-- The method `TimerImpl::TimerTick()` (lines 181-191). -/
def TimerTick (s : TimerImpl) : TimerImpl :=
  let s1 := cout (store (wrap32 (s.time_remaining_ - 1)) s)
  if 0 < s1.time_remaining_ then
    let s2 := async_wait Handler.TimerTick (expires_from_now 1 s1)
    notify (Event.TimerTicked s2.time_remaining_) s2
  else
    notify Event.TimerEnded s1

/-- Running a handler. -/
def invoke (h : Handler) (s : TimerImpl) : TimerImpl :=
  match h with
  | Handler.TimerTick => TimerTick s

/-- One iteration of `io_service_.run()`: the oldest ready handler is run; when
none is ready and waits are outstanding, the loop sleeps until the expiry of
the timer and the waiting handlers become ready; when neither is there, the
loop is out of work (`none`) and `run()` returns. -/
def step (s : TimerImpl) : Option TimerImpl :=
  match s.io_service_.ready with
  | h :: rest => some (invoke h { s with io_service_ := { ready := rest } })
  | [] =>
    match s.timer_.waits with
    | [] => none
    | w :: ws =>
      some { s with
        now := max s.now s.timer_.expiry
        io_service_ := { ready := w :: ws }
        timer_ := { s.timer_ with waits := [] } }

/-- The call `io_service_.run()`: iterations until the loop is out of work;
`none` when `fuel` iterations were not enough. -/
def run : Nat → TimerImpl → Option TimerImpl
  | 0, _ => none
  | fuel + 1, s =>
    match step s with
    | none => some s
    | some s1 => run fuel s1

/-- The state after `k` iterations of the loop (fewer when it ran out of work
before). -/
def stepN : Nat → TimerImpl → TimerImpl
  | 0, s => s
  | k + 1, s =>
    match step s with
    | none => s
    | some s1 => stepN k s1

/-- A state in which `StartTimer(seconds)` returns to its caller (line 179).
The thread started on line 177 runs `io_service_.run()` concurrently with the
caller and a handler is already posted (line 175), so by the time the call
returns the loop thread has completed some number `k` of iterations, possibly
none, possibly the first `TimerTick`. -/
def StartTimer_return (k : Nat) (seconds : Int) (s : TimerImpl) : TimerImpl :=
  stepN k (StartTimer seconds s)

/-- The notifications of a countdown that has `k` ticks to announce:
`TimerTicked k, ..., TimerTicked 1, TimerEnded`. -/
def countdown : Nat → List Event
  | 0 => [Event.TimerEnded]
  | k + 1 => Event.TimerTicked (k + 1) :: countdown k

/-- A countdown under way: a positive number of seconds remains, `TimerEnded`
has not been delivered, and exactly one `TimerTick` is registered, either
posted or waiting on the deadline timer. -/
def Running (s : TimerImpl) : Prop :=
  0 < s.time_remaining_ ∧ s.time_remaining_ < 2 ^ 31 ∧ Event.TimerEnded ∉ delivered s ∧
    ((s.io_service_.ready = [Handler.TimerTick] ∧ s.timer_.waits = []) ∨
      (s.io_service_.ready = [] ∧ s.timer_.waits = [Handler.TimerTick]))

/-- A countdown that is over: zero seconds remain, `TimerEnded` has been
delivered and nothing is registered. -/
def Finished (s : TimerImpl) : Prop :=
  s.time_remaining_ = 0 ∧ Event.TimerEnded ∈ delivered s ∧
    s.io_service_.ready = [] ∧ s.timer_.waits = []

/-- Every `TimerTicked` received by the listener carries a payload of at least 1. -/
def TickedPositive (s : TimerImpl) : Prop :=
  ∀ v : Int, Event.TimerTicked v ∈ delivered s → 1 ≤ v

/-! ## Auxiliary facts -/

theorem wrap32_id (x : Int) (h0 : -2 ^ 31 ≤ x) (h1 : x < 2 ^ 31) : wrap32 x = x := by
  unfold wrap32
  omega

@[simp] theorem delivered_store (v : Int) (s : TimerImpl) :
    delivered (store v s) = delivered s := by
  simp [delivered, store, List.filterMap_append]

@[simp] theorem delivered_post (h : Handler) (s : TimerImpl) :
    delivered (post h s) = delivered s := by
  simp [delivered, post, List.filterMap_append]

@[simp] theorem delivered_thread_run (s : TimerImpl) :
    delivered (thread_run s) = delivered s := by
  simp [delivered, thread_run, List.filterMap_append]

@[simp] theorem delivered_cout (s : TimerImpl) : delivered (cout s) = delivered s := by
  simp [delivered, cout, List.filterMap_append]

@[simp] theorem delivered_expires_from_now (secs : Nat) (s : TimerImpl) :
    delivered (expires_from_now secs s) = delivered s := by
  simp [delivered, expires_from_now, List.filterMap_append]

@[simp] theorem delivered_async_wait (h : Handler) (s : TimerImpl) :
    delivered (async_wait h s) = delivered s := by
  simp [delivered, async_wait, List.filterMap_append]

@[simp] theorem delivered_notify (e : Event) (s : TimerImpl) :
    delivered (notify e s) = delivered s ++ [e] := by
  simp [delivered, notify, List.filterMap_append]

@[simp] theorem delivered_StartTimer (seconds : Int) (s : TimerImpl) :
    delivered (StartTimer seconds s) = delivered s := by
  simp [StartTimer]

@[simp] theorem delivered_create (uninit : Int) : delivered (TimerImpl.create uninit) = [] := rfl

/-- What one firing of `TimerTick` adds to the calls received by the listener. -/
theorem delivered_TimerTick (s : TimerImpl) :
    delivered (TimerTick s) = delivered s ++
      [if 0 < wrap32 (s.time_remaining_ - 1)
        then Event.TimerTicked (wrap32 (s.time_remaining_ - 1)) else Event.TimerEnded] := by
  unfold TimerTick
  by_cases h : 0 < wrap32 (s.time_remaining_ - 1)
  · simp [h, cout, store, async_wait, expires_from_now, notify, delivered,
      List.filterMap_append]
  · simp [h, cout, store, notify, delivered, List.filterMap_append]

/-- The firing of `TimerTick` that rearms: the state it leaves. -/
theorem TimerTick_rearm (s : TimerImpl) (h : 0 < wrap32 (s.time_remaining_ - 1)) :
    TimerTick s =
      { time_remaining_ := wrap32 (s.time_remaining_ - 1)
        io_service_ := { ready := s.io_service_.ready ++ s.timer_.waits }
        timer_ := { expiry := s.now + 1, waits := [Handler.TimerTick] }
        now := s.now
        trace := s.trace ++ [Effect.store (wrap32 (s.time_remaining_ - 1)),
          Effect.cout (wrap32 (s.time_remaining_ - 1)),
          Effect.expires_from_now 1, Effect.async_wait Handler.TimerTick,
          Effect.listener (Event.TimerTicked (wrap32 (s.time_remaining_ - 1)))] } := by
  simp [TimerTick, cout, store, notify, async_wait, expires_from_now, h]

/-- The firing of `TimerTick` that ends the countdown: the state it leaves. -/
theorem TimerTick_end (s : TimerImpl) (h : ¬ 0 < wrap32 (s.time_remaining_ - 1)) :
    TimerTick s =
      { time_remaining_ := wrap32 (s.time_remaining_ - 1)
        io_service_ := s.io_service_
        timer_ := s.timer_
        now := s.now
        trace := s.trace ++ [Effect.store (wrap32 (s.time_remaining_ - 1)),
          Effect.cout (wrap32 (s.time_remaining_ - 1)),
          Effect.listener Event.TimerEnded] } := by
  simp [TimerTick, cout, store, notify, h]

/-- The loop iteration that runs a posted `TimerTick`. -/
theorem step_ready (s : TimerImpl) (rest : List Handler)
    (h : s.io_service_.ready = Handler.TimerTick :: rest) :
    step s = some (TimerTick { s with io_service_ := { ready := rest } }) := by
  simp [step, h, invoke]

/-- The loop iteration that sleeps until the deadline. -/
theorem step_wait (s : TimerImpl) (w : Handler) (ws : List Handler)
    (h : s.io_service_.ready = []) (hw : s.timer_.waits = w :: ws) :
    step s = some { s with
      now := max s.now s.timer_.expiry
      io_service_ := { ready := w :: ws }
      timer_ := { s.timer_ with waits := [] } } := by
  simp [step, h, hw]

/-- The loop is out of work exactly when nothing is pending. -/
theorem step_eq_none_iff (s : TimerImpl) : step s = none ↔ pending s = 0 := by
  rcases s with ⟨t, ⟨r⟩, ⟨e, w⟩, n, tr⟩
  cases r <;> cases w <;> simp [step, pending]

/-- More fuel does not change the result of a finished run. -/
theorem run_mono (fuel : Nat) : ∀ (s r : TimerImpl) (extra : Nat),
    run fuel s = some r → run (fuel + extra) s = some r := by
  induction fuel with
  | zero => intro s r extra h; simp [run] at h
  | succ f ih =>
    intro s r extra h
    have e : f + 1 + extra = (f + extra) + 1 := by omega
    rw [e]
    unfold run at h ⊢
    cases hs : step s with
    | none => simpa [hs] using h
    | some s1 =>
      simp only [hs] at h ⊢
      exact ih s1 r extra h

/-- A finished run is the state reached after that many iterations. -/
theorem run_eq_stepN (fuel : Nat) : ∀ (s r : TimerImpl),
    run fuel s = some r → stepN fuel s = r := by
  induction fuel with
  | zero => intro s r h; simp [run] at h
  | succ f ih =>
    intro s r h
    unfold run at h
    unfold stepN
    cases hs : step s with
    | none => simpa [hs] using h
    | some s1 =>
      simp only [hs] at h ⊢
      exact ih s1 r h

/-- The countdown from a state in which one `TimerTick` is posted and
`k + 1` seconds remain: the loop returns after `2 * k + 2` iterations, having
delivered `countdown k`, with nothing pending, zero seconds remaining and `k`
seconds slept. -/
theorem run_countdown (k : Nat) : ∀ (s : TimerImpl),
    s.io_service_.ready = [Handler.TimerTick] → s.timer_.waits = [] →
    s.time_remaining_ = (k : Int) + 1 → (k : Int) + 1 < 2 ^ 31 →
    ∃ r, run (2 * k + 2) s = some r ∧ delivered r = delivered s ++ countdown k ∧
      r.time_remaining_ = 0 ∧ pending r = 0 ∧ r.now = s.now + k := by
  induction k with
  | zero =>
    intro s hr hw ht _
    rcases s with ⟨t, ⟨r⟩, ⟨e, w⟩, n, tr⟩
    simp only [Nat.cast_zero, zero_add] at hr hw ht
    subst hr hw ht
    have hwrap : wrap32 ((1 : Int) - 1) = 0 := by unfold wrap32; omega
    have hend : ¬ 0 < wrap32 ((1 : Int) - 1) := by rw [hwrap]; omega
    have hs1 : step ⟨1, ⟨[Handler.TimerTick]⟩, ⟨e, []⟩, n, tr⟩
        = some (TimerTick ⟨1, ⟨[]⟩, ⟨e, []⟩, n, tr⟩) := step_ready _ [] rfl
    have ht1 := TimerTick_end ⟨1, ⟨[]⟩, ⟨e, []⟩, n, tr⟩ hend
    simp only [hwrap] at ht1
    refine ⟨TimerTick ⟨1, ⟨[]⟩, ⟨e, []⟩, n, tr⟩, ?_, ?_, ?_, ?_, ?_⟩
    · rw [run, hs1]
      simp only
      rw [ht1]
      rfl
    all_goals
      simp [ht1, delivered, pending, countdown, List.filterMap_append]
  | succ k ih =>
    intro s hr hw ht hlt
    rcases s with ⟨t, ⟨r⟩, ⟨e, w⟩, n, tr⟩
    simp only at hr hw ht
    push_cast at ht hlt
    subst hr hw ht
    have hwrap : wrap32 ((k : Int) + 1 + 1 - 1) = (k : Int) + 1 := by
      rw [wrap32_id] <;> omega
    have hpos : (0 : Int) < wrap32 ((k : Int) + 1 + 1 - 1) := by
      rw [hwrap]; omega
    let s2 : TimerImpl :=
      { time_remaining_ := (k : Int) + 1
        io_service_ := { ready := [Handler.TimerTick] }
        timer_ := { expiry := n + 1, waits := [] }
        now := n + 1
        trace := tr ++ [Effect.store ((k : Int) + 1), Effect.cout ((k : Int) + 1),
          Effect.expires_from_now 1, Effect.async_wait Handler.TimerTick,
          Effect.listener (Event.TimerTicked ((k : Int) + 1))] }
    obtain ⟨r, h1, h2, h3, h4, h5⟩ := ih s2 rfl rfl rfl (by omega)
    refine ⟨r, ?_, ?_, h3, h4, ?_⟩
    · have hf : 2 * (k + 1) + 2 = (2 * k + 2) + 1 + 1 := by omega
      rw [hf, ← h1]
      have hs1 : step ⟨(k : Int) + 1 + 1, ⟨[Handler.TimerTick]⟩, ⟨e, []⟩, n, tr⟩
          = some (TimerTick ⟨(k : Int) + 1 + 1, ⟨[]⟩, ⟨e, []⟩, n, tr⟩) :=
        step_ready _ [] rfl
      have ht1 := TimerTick_rearm ⟨(k : Int) + 1 + 1, ⟨[]⟩, ⟨e, []⟩, n, tr⟩ hpos
      simp only [hwrap, List.append_nil] at ht1
      rw [run, hs1]
      simp only
      rw [ht1, run, step_wait _ Handler.TimerTick [] rfl rfl]
      simp only
      have hmax : max n (n + 1) = n + 1 := by omega
      rw [hmax]
    · rw [h2]
      simp [s2, delivered, countdown, List.filterMap_append]
    · rw [h5]
      simp only [s2]
      omega

/-- Once the loop is out of work the state no longer changes. -/
theorem stepN_of_step_none (k : Nat) (s : TimerImpl) (h : step s = none) : stepN k s = s := by
  cases k with
  | zero => rfl
  | succ k => simp [stepN, h]

/-- The notifications of a countdown, written with `List.range`. -/
theorem countdown_eq_range (k : Nat) :
    countdown k =
      (List.range k).map (fun i : Nat => Event.TimerTicked ((k : Int) - (i : Int)))
        ++ [Event.TimerEnded] := by
  induction k with
  | zero => rfl
  | succ k ih =>
    rw [countdown, ih, List.range_succ_eq_map]
    simp only [List.map_cons, List.map_map, List.cons_append, Nat.cast_zero, sub_zero]
    congr 2
    apply List.map_congr_left
    intro i _
    show Event.TimerTicked ((k : Int) - (i : Int))
      = Event.TimerTicked (((k + 1 : Nat) : Int) - ((i + 1 : Nat) : Int))
    congr 1
    push_cast
    ring

/-- One loop iteration adds at most one call to the listener; a `TimerTicked`
it adds has a positive payload. -/
theorem step_delivered (s r : TimerImpl) (h : step s = some r) :
    delivered r = delivered s ∨
      delivered r = delivered s ++
        [if 0 < wrap32 (s.time_remaining_ - 1)
          then Event.TimerTicked (wrap32 (s.time_remaining_ - 1)) else Event.TimerEnded] := by
  rcases s with ⟨t, ⟨rd⟩, ⟨e, w⟩, n, tr⟩
  cases rd with
  | cons hd tl =>
    cases hd
    right
    rw [step_ready _ tl rfl] at h
    injection h with h
    rw [← h, delivered_TimerTick]
    rfl
  | nil =>
    cases w with
    | nil => simp [step] at h
    | cons w ws =>
      left
      rw [step_wait _ w ws rfl rfl] at h
      injection h with h
      rw [← h]
      rfl

theorem TickedPositive_step (s r : TimerImpl) (h : step s = some r) (hs : TickedPositive s) :
    TickedPositive r := by
  intro v hv
  rcases step_delivered s r h with e | e
  · rw [e] at hv
    exact hs v hv
  · rw [e] at hv
    rcases List.mem_append.mp hv with hv | hv
    · exact hs v hv
    · by_cases hp : 0 < wrap32 (s.time_remaining_ - 1)
      · simp only [hp, if_true, List.mem_singleton, Event.TimerTicked.injEq] at hv
        omega
      · simp [hp] at hv

theorem TickedPositive_stepN (k : Nat) : ∀ s : TimerImpl, TickedPositive s →
    TickedPositive (stepN k s) := by
  induction k with
  | zero => intro s hs; exact hs
  | succ k ih =>
    intro s hs
    unfold stepN
    cases h : step s with
    | none => exact hs
    | some r => exact ih r (TickedPositive_step s r h hs)

/-- A loop iteration takes a countdown under way to one under way or to a
finished one. -/
theorem Running_step (s r : TimerImpl) (h : step s = some r) (hs : Running s) :
    Running r ∨ Finished r := by
  rcases s with ⟨t, ⟨rd⟩, ⟨e, w⟩, n, tr⟩
  obtain ⟨h0, h1, hE, hq | hq⟩ := hs
  · obtain ⟨hrd, hw⟩ := hq
    simp only at h0 h1 hrd hw
    subst hrd hw
    rw [step_ready _ [] rfl] at h
    injection h with h
    have hwrap : wrap32 (t - 1) = t - 1 := by rw [wrap32_id] <;> omega
    by_cases hp : 0 < wrap32 (t - 1)
    · left
      rw [TimerTick_rearm _ hp] at h
      subst h
      refine ⟨hp, ?_, ?_, Or.inr ⟨rfl, rfl⟩⟩
      · simp only [hwrap]; omega
      · simpa [delivered, List.filterMap_append] using hE
    · right
      rw [TimerTick_end _ hp] at h
      subst h
      refine ⟨?_, ?_, rfl, rfl⟩
      · simp only [hwrap] at hp ⊢; omega
      · simp [delivered, List.filterMap_append]
  · obtain ⟨hrd, hw⟩ := hq
    simp only at h0 h1 hrd hw
    subst hrd hw
    rw [step_wait _ Handler.TimerTick [] rfl rfl] at h
    injection h with h
    subst h
    left
    exact ⟨h0, h1, hE, Or.inl ⟨rfl, rfl⟩⟩

theorem Finished_step (s : TimerImpl) (hs : Finished s) : step s = none := by
  obtain ⟨_, _, hrd, hw⟩ := hs
  simp [step, hrd, hw]

/-- Every state of the run of a countdown is under way or finished. -/
theorem Running_stepN (k : Nat) : ∀ s : TimerImpl, Running s ∨ Finished s →
    Running (stepN k s) ∨ Finished (stepN k s) := by
  induction k with
  | zero => intro s hs; exact hs
  | succ k ih =>
    intro s hs
    unfold stepN
    cases h : step s with
    | none => exact hs
    | some r =>
      rcases hs with hs | hs
      · exact ih r (Running_step s r h hs)
      · rw [Finished_step s hs] at h
        cases h

/-- The state left by `StartTimer` with a positive duration on a new timer is
a countdown under way. -/
theorem Running_StartTimer (seconds uninit : Int) (h0 : 0 < seconds)
    (h1 : seconds < 2 ^ 31) : Running (StartTimer seconds (TimerImpl.create uninit)) := by
  refine ⟨h0, h1, ?_, Or.inl ⟨rfl, rfl⟩⟩
  simp

/-- The run after `StartTimer` with a positive duration on a new timer. -/
theorem run_StartTimer (seconds uninit : Int) (h0 : 0 < seconds) (h1 : seconds < 2 ^ 31) :
    ∃ r, run (2 * seconds.toNat) (StartTimer seconds (TimerImpl.create uninit)) = some r ∧
      delivered r = countdown (seconds.toNat - 1) ∧ r.time_remaining_ = 0 ∧
      pending r = 0 ∧ r.now = seconds.toNat - 1 := by
  obtain ⟨k, hk⟩ : ∃ k : Nat, seconds = (k : Int) + 1 := ⟨(seconds - 1).toNat, by omega⟩
  subst hk
  have hn : ((k : Int) + 1).toNat = k + 1 := by omega
  obtain ⟨r, hr1, hr2, hr3, hr4, hr5⟩ :=
    run_countdown k (StartTimer ((k : Int) + 1) (TimerImpl.create uninit)) rfl rfl rfl h1
  refine ⟨r, ?_, ?_, hr3, hr4, ?_⟩
  · rw [hn, ← hr1]
    congr 1
  · rw [hr2, hn]
    simp
  · rw [hr5, hn]
    show 0 + k = k + 1 - 1
    omega

/-- A firing of `TimerTick` only appends to the effects. -/
theorem TimerTick_trace (s : TimerImpl) : ∃ rest, (TimerTick s).trace = s.trace ++ rest := by
  by_cases hp : 0 < wrap32 (s.time_remaining_ - 1)
  · rw [TimerTick_rearm s hp]
    exact ⟨_, rfl⟩
  · rw [TimerTick_end s hp]
    exact ⟨_, rfl⟩

/-- A loop iteration only appends to the effects. -/
theorem step_trace (s r : TimerImpl) (h : step s = some r) :
    ∃ rest, r.trace = s.trace ++ rest := by
  rcases s with ⟨t, ⟨rd⟩, ⟨e, w⟩, n, tr⟩
  cases rd with
  | cons hd tl =>
    cases hd
    rw [step_ready _ tl rfl] at h
    injection h with h
    rw [← h]
    exact TimerTick_trace _
  | nil =>
    cases w with
    | nil => simp [step] at h
    | cons w ws =>
      rw [step_wait _ w ws rfl rfl] at h
      injection h with h
      rw [← h]
      exact ⟨[], by simp⟩

/-- The loop iterations only append to the effects. -/
theorem stepN_trace (k : Nat) : ∀ s : TimerImpl,
    ∃ rest, (stepN k s).trace = s.trace ++ rest := by
  induction k with
  | zero => intro s; exact ⟨[], by simp [stepN]⟩
  | succ k ih =>
    intro s
    unfold stepN
    cases h : step s with
    | none => exact ⟨[], by simp⟩
    | some r =>
      obtain ⟨r1, h1⟩ := step_trace s r h
      obtain ⟨r2, h2⟩ := ih r
      exact ⟨r1 ++ r2, by simp only [h2, h1, List.append_assoc]⟩

/-! ## The claims -/

/-- C1: for a duration `seconds > 0` (an `int32_t`), `StartTimer(seconds)` on a
new timer followed by the event loop (any fuel of at least `2 * seconds`
iterations) returns, and the listener has then received exactly
`TimerTicked(seconds-1), ..., TimerTicked(1), TimerEnded()`: `seconds - 1`
ticks with decreasing payloads, then one `TimerEnded`; the loop is out of work,
so nothing follows. -/
theorem StartTimer_delivers_countdown (seconds uninit : Int) (fuel : Nat)
    (h0 : 0 < seconds) (h1 : seconds < 2 ^ 31) (hf : 2 * seconds.toNat ≤ fuel) :
    ∃ r, run fuel (StartTimer seconds (TimerImpl.create uninit)) = some r ∧
      delivered r =
        (List.range (seconds.toNat - 1)).map
          (fun i : Nat => Event.TimerTicked (seconds - 1 - (i : Int)))
          ++ [Event.TimerEnded] ∧
      step r = none := by
  obtain ⟨r, hr1, hr2, _, hr4, _⟩ := run_StartTimer seconds uninit h0 h1
  refine ⟨r, ?_, ?_, (step_eq_none_iff r).mpr hr4⟩
  · obtain ⟨extra, he⟩ : ∃ extra, fuel = 2 * seconds.toNat + extra := ⟨fuel - 2 * seconds.toNat, by omega⟩
    rw [he]
    exact run_mono _ _ _ extra hr1
  · rw [hr2, countdown_eq_range]
    have hc : ((seconds.toNat - 1 : Nat) : Int) = seconds - 1 := by omega
    rw [hc]

/-- Instance of C1: a duration of 3 seconds delivers `TimerTicked(2)`,
`TimerTicked(1)`, `TimerEnded()`. -/
theorem StartTimer_delivers_countdown_witness :
    ∃ r, run 6 (StartTimer 3 (TimerImpl.create 77)) = some r ∧
      delivered r =
        (List.range ((3 : Int).toNat - 1)).map
          (fun i : Nat => Event.TimerTicked (3 - 1 - (i : Int)))
          ++ [Event.TimerEnded] ∧
      step r = none :=
  StartTimer_delivers_countdown 3 77 6 (by decide) (by decide) (by decide)

/-- C2, counterexample: `StartTimer(0)` on a new timer (whose `time_remaining_`
held 5) is not rejected: it overwrites `time_remaining_`, posts a tick handler,
and the event loop then delivers `TimerEnded()`. -/
theorem StartTimer_zero_accepted :
    (StartTimer 0 (TimerImpl.create 5)).time_remaining_ = 0 ∧
    (TimerImpl.create 5).time_remaining_ = 5 ∧
    (StartTimer 0 (TimerImpl.create 5)).io_service_.ready = [Handler.TimerTick] ∧
    (run 2 (StartTimer 0 (TimerImpl.create 5))).map delivered
      = some [Event.TimerEnded] := by
  decide

/-- C2, amended: for a duration `seconds <= 0` (above `INT32_MIN`),
`StartTimer(seconds)` is not rejected: it stores `seconds` in
`time_remaining_`, registers one tick handler and delivers nothing itself; in
no state of the run that follows has the listener received a `TimerTicked`. -/
theorem StartTimer_nonpositive_no_tick (seconds uninit : Int)
    (hlo : -2 ^ 31 < seconds) (h0 : seconds ≤ 0) :
    (StartTimer seconds (TimerImpl.create uninit)).time_remaining_ = seconds ∧
    pending (StartTimer seconds (TimerImpl.create uninit)) = 1 ∧
    delivered (StartTimer seconds (TimerImpl.create uninit)) = [] ∧
    ∀ (k : Nat) (v : Int),
      Event.TimerTicked v ∉ delivered (stepN k (StartTimer seconds (TimerImpl.create uninit))) := by
  refine ⟨rfl, rfl, rfl, ?_⟩
  intro k v
  have hwrap : wrap32 (seconds - 1) = seconds - 1 := by rw [wrap32_id] <;> omega
  have hend : ¬ 0 < wrap32 (seconds - 1) := by rw [hwrap]; omega
  cases k with
  | zero => simp [stepN]
  | succ k =>
    have hs : step (StartTimer seconds (TimerImpl.create uninit))
        = some (TimerTick ⟨seconds, ⟨[]⟩, ⟨1, []⟩, 0,
            [Effect.store seconds, Effect.post Handler.TimerTick, Effect.thread_run]⟩) :=
      step_ready _ [] rfl
    rw [stepN, hs]
    simp only
    rw [TimerTick_end _ hend, stepN_of_step_none _ _ (by simp [step])]
    simp [delivered]

/-- Instance of C2 (amended) at a duration of -4. -/
theorem StartTimer_nonpositive_no_tick_witness :
    (StartTimer (-4) (TimerImpl.create 9)).time_remaining_ = -4 ∧
    pending (StartTimer (-4) (TimerImpl.create 9)) = 1 ∧
    delivered (StartTimer (-4) (TimerImpl.create 9)) = [] ∧
    ∀ (k : Nat) (v : Int),
      Event.TimerTicked v ∉ delivered (stepN k (StartTimer (-4) (TimerImpl.create 9))) :=
  StartTimer_nonpositive_no_tick (-4) 9 (by decide) (by decide)

/-- C3, the code at `StartTimer(3)`: the first `TimerTick` is posted as a ready
handler and no wait on the deadline timer is outstanding; the first loop
iteration runs it at time 0 and delivers `TimerTicked(2)`; the run delivers
`TimerEnded()` after 2 seconds of waiting, not 3.  At `StartTimer(1)` the run
delivers `TimerEnded()` without any wait. -/
theorem StartTimer_first_tick_immediate :
    (StartTimer 3 (TimerImpl.create 0)).io_service_.ready = [Handler.TimerTick] ∧
    (StartTimer 3 (TimerImpl.create 0)).timer_.waits = [] ∧
    (step (StartTimer 3 (TimerImpl.create 0))).map (fun r => (delivered r, r.now))
      = some ([Event.TimerTicked 2], 0) ∧
    (run 6 (StartTimer 3 (TimerImpl.create 0))).map (fun r => (delivered r, r.now))
      = some ([Event.TimerTicked 2, Event.TimerTicked 1, Event.TimerEnded], 2) ∧
    (run 2 (StartTimer 1 (TimerImpl.create 0))).map (fun r => (delivered r, r.now))
      = some ([Event.TimerEnded], 0) := by
  decide

/-- C4: whatever the argument of `StartTimer` and however many loop iterations
have run, every `TimerTicked(v)` received by the listener has `v >= 1`. -/
theorem TimerTicked_payload_positive (seconds uninit : Int) (k : Nat) (v : Int) :
    Event.TimerTicked v ∈ delivered (stepN k (StartTimer seconds (TimerImpl.create uninit))) →
      1 ≤ v := by
  have h : TickedPositive (StartTimer seconds (TimerImpl.create uninit)) := by
    intro w hw
    simp at hw
  exact TickedPositive_stepN k _ h v

/-- Instance of C4: the `TimerTicked(2)` delivered by the first loop iteration
after `StartTimer(3)`. -/
theorem TimerTicked_payload_positive_witness :
    Event.TimerTicked 2 ∈ delivered (stepN 1 (StartTimer 3 (TimerImpl.create 0))) ∧
      (1 : Int) ≤ 2 :=
  ⟨by decide, TimerTicked_payload_positive 3 0 1 2 (by decide)⟩

/-- C5: after `StartTimer(seconds)` with `seconds > 0` on a new timer, in the
state after any number of loop iterations the value of `time_remaining_` is
not negative, and it is 0 exactly when `TimerEnded` has been delivered; and the
run does reach the state in which `TimerEnded` is delivered and
`time_remaining_` is 0. -/
theorem time_remaining_nonneg (seconds uninit : Int) (h0 : 0 < seconds)
    (h1 : seconds < 2 ^ 31) :
    (∀ k : Nat,
      0 ≤ (stepN k (StartTimer seconds (TimerImpl.create uninit))).time_remaining_ ∧
      ((stepN k (StartTimer seconds (TimerImpl.create uninit))).time_remaining_ = 0 ↔
        Event.TimerEnded ∈
          delivered (stepN k (StartTimer seconds (TimerImpl.create uninit))))) ∧
    (stepN (2 * seconds.toNat) (StartTimer seconds (TimerImpl.create uninit))).time_remaining_
      = 0 ∧
    Event.TimerEnded ∈
      delivered (stepN (2 * seconds.toNat) (StartTimer seconds (TimerImpl.create uninit))) := by
  have hall := fun k =>
    Running_stepN k _ (Or.inl (Running_StartTimer seconds uninit h0 h1))
  have hk : ∀ k : Nat,
      0 ≤ (stepN k (StartTimer seconds (TimerImpl.create uninit))).time_remaining_ ∧
      ((stepN k (StartTimer seconds (TimerImpl.create uninit))).time_remaining_ = 0 ↔
        Event.TimerEnded ∈
          delivered (stepN k (StartTimer seconds (TimerImpl.create uninit)))) := by
    intro k
    rcases hall k with ⟨hp, _, hE, _⟩ | ⟨hz, hE, _, _⟩
    · exact ⟨le_of_lt hp, fun hz => absurd hz (ne_of_gt hp), fun hm => absurd hm hE⟩
    · exact ⟨le_of_eq hz.symm, fun _ => hE, fun _ => hz⟩
  obtain ⟨r, hr1, _, hr3, _, _⟩ := run_StartTimer seconds uninit h0 h1
  have hr := run_eq_stepN _ _ _ hr1
  refine ⟨hk, ?_, ?_⟩
  · rw [hr]; exact hr3
  · exact ((hk _).2).mp (by rw [hr]; exact hr3)

/-- Instance of C5 at a duration of 2 seconds. -/
theorem time_remaining_nonneg_witness :
    (∀ k : Nat,
      0 ≤ (stepN k (StartTimer 2 (TimerImpl.create 0))).time_remaining_ ∧
      ((stepN k (StartTimer 2 (TimerImpl.create 0))).time_remaining_ = 0 ↔
        Event.TimerEnded ∈ delivered (stepN k (StartTimer 2 (TimerImpl.create 0))))) ∧
    (stepN (2 * (2 : Int).toNat) (StartTimer 2 (TimerImpl.create 0))).time_remaining_ = 0 ∧
    Event.TimerEnded ∈
      delivered (stepN (2 * (2 : Int).toNat) (StartTimer 2 (TimerImpl.create 0))) :=
  time_remaining_nonneg 2 0 (by decide) (by decide)

/-- C6: after `StartTimer(seconds)` with `seconds > 0` on a new timer, in the
state after the call and after any number of loop iterations at most one
tick-handler registration (posted handler or wait on the deadline timer) is
pending. -/
theorem pending_le_one (seconds uninit : Int) (k : Nat) (h0 : 0 < seconds)
    (h1 : seconds < 2 ^ 31) :
    pending (stepN k (StartTimer seconds (TimerImpl.create uninit))) ≤ 1 := by
  rcases Running_stepN k _ (Or.inl (Running_StartTimer seconds uninit h0 h1)) with
    ⟨_, _, _, ⟨hr, hw⟩ | ⟨hr, hw⟩⟩ | ⟨_, _, hr, hw⟩ <;>
  simp [pending, hr, hw]

/-- Instance of C6: the state after 3 loop iterations of a 5 second countdown. -/
theorem pending_le_one_witness :
    pending (stepN 3 (StartTimer 5 (TimerImpl.create 0))) ≤ 1 :=
  pending_le_one 5 0 3 (by decide) (by decide)

/-- C9: one firing of `TimerTick` from a state with `time_remaining_ = r` (an
`int32_t` above `INT32_MIN`).  When `r - 1 > 0` the effects are, in this order:
the write of `r - 1` to `time_remaining_`, the line printed,
`expires_from_now(1 s)`, one `async_wait`, and then `TimerTicked(r - 1)`; the
deadline timer is left with exactly one wait, expiring one second after the
current time.  When `r - 1 = 0` the effects are the write of 0, the line printed
and one `TimerEnded()`; the ready handlers and the deadline timer are left as
they were. -/
theorem TimerTick_firing (s : TimerImpl) (hlo : -2 ^ 31 < s.time_remaining_)
    (hhi : s.time_remaining_ < 2 ^ 31) :
    (TimerTick s).time_remaining_ = s.time_remaining_ - 1 ∧
    (0 < s.time_remaining_ - 1 →
      (TimerTick s).trace = s.trace ++
        [Effect.store (s.time_remaining_ - 1), Effect.cout (s.time_remaining_ - 1),
          Effect.expires_from_now 1, Effect.async_wait Handler.TimerTick,
          Effect.listener (Event.TimerTicked (TimerTick s).time_remaining_)] ∧
      (TimerTick s).timer_ = { expiry := s.now + 1, waits := [Handler.TimerTick] } ∧
      (TimerTick s).io_service_.ready = s.io_service_.ready ++ s.timer_.waits ∧
      (TimerTick s).now = s.now) ∧
    (s.time_remaining_ - 1 = 0 →
      (TimerTick s).trace = s.trace ++
        [Effect.store 0, Effect.cout 0, Effect.listener Event.TimerEnded] ∧
      (TimerTick s).timer_ = s.timer_ ∧
      (TimerTick s).io_service_ = s.io_service_ ∧
      (TimerTick s).now = s.now) := by
  have hwrap : wrap32 (s.time_remaining_ - 1) = s.time_remaining_ - 1 := by
    rw [wrap32_id] <;> omega
  refine ⟨?_, ?_, ?_⟩
  · by_cases hp : 0 < wrap32 (s.time_remaining_ - 1)
    · rw [TimerTick_rearm s hp, hwrap]
    · rw [TimerTick_end s hp, hwrap]
  · intro hp
    rw [TimerTick_rearm s (by rw [hwrap]; exact hp), hwrap]
    exact ⟨rfl, rfl, rfl, rfl⟩
  · intro hz
    rw [TimerTick_end s (by rw [hwrap, hz]; decide), hwrap, hz]
    exact ⟨rfl, rfl, rfl, rfl⟩

/-- Instance of C9: the firing from `time_remaining_ = 3` on a timer that has
just been started rearms and delivers `TimerTicked(2)`. -/
theorem TimerTick_firing_witness :
    (-2 ^ 31 < (StartTimer 3 (TimerImpl.create 0)).time_remaining_ ∧
      (StartTimer 3 (TimerImpl.create 0)).time_remaining_ < 2 ^ 31 ∧
      0 < (StartTimer 3 (TimerImpl.create 0)).time_remaining_ - 1) ∧
    (TimerTick (StartTimer 3 (TimerImpl.create 0))).time_remaining_
      = (StartTimer 3 (TimerImpl.create 0)).time_remaining_ - 1 ∧
    (TimerTick (StartTimer 3 (TimerImpl.create 0))).trace
      = (StartTimer 3 (TimerImpl.create 0)).trace ++
        [Effect.store ((StartTimer 3 (TimerImpl.create 0)).time_remaining_ - 1),
          Effect.cout ((StartTimer 3 (TimerImpl.create 0)).time_remaining_ - 1),
          Effect.expires_from_now 1, Effect.async_wait Handler.TimerTick,
          Effect.listener (Event.TimerTicked
            (TimerTick (StartTimer 3 (TimerImpl.create 0))).time_remaining_)] :=
  ⟨⟨by decide, by decide, by decide⟩,
    (TimerTick_firing (StartTimer 3 (TimerImpl.create 0)) (by decide) (by decide)).1,
    ((TimerTick_firing (StartTimer 3 (TimerImpl.create 0)) (by decide) (by decide)).2.1
      (by decide)).1⟩

/-- C10: for a duration `-2^31 < seconds <= 0`, `StartTimer(seconds)` on a new
timer is accepted and the event loop (any fuel of at least 2 iterations)
returns after one firing of `TimerTick`: `time_remaining_` is `seconds - 1`,
the listener has received exactly one `TimerEnded()` and no `TimerTicked`, and
the effects of the firing are the write, the line printed and the call of the
listener: the deadline is not rearmed and nothing is pending. -/
theorem StartTimer_nonpositive_run (seconds uninit : Int) (fuel : Nat)
    (hlo : -2 ^ 31 < seconds) (h0 : seconds ≤ 0) (hf : 2 ≤ fuel) :
    ∃ r, run fuel (StartTimer seconds (TimerImpl.create uninit)) = some r ∧
      r.time_remaining_ = seconds - 1 ∧
      delivered r = [Event.TimerEnded] ∧
      r.trace = [Effect.store seconds, Effect.post Handler.TimerTick, Effect.thread_run,
        Effect.store (seconds - 1), Effect.cout (seconds - 1),
        Effect.listener Event.TimerEnded] ∧
      r.timer_ = (TimerImpl.create uninit).timer_ ∧
      pending r = 0 := by
  have hwrap : wrap32 (seconds - 1) = seconds - 1 := by rw [wrap32_id] <;> omega
  have hend : ¬ 0 < wrap32 (seconds - 1) := by rw [hwrap]; omega
  have hs : step (StartTimer seconds (TimerImpl.create uninit))
      = some (TimerTick ⟨seconds, ⟨[]⟩, ⟨1, []⟩, 0,
          [Effect.store seconds, Effect.post Handler.TimerTick, Effect.thread_run]⟩) :=
    step_ready _ [] rfl
  have ht := TimerTick_end ⟨seconds, ⟨[]⟩, ⟨1, []⟩, 0,
    [Effect.store seconds, Effect.post Handler.TimerTick, Effect.thread_run]⟩ hend
  simp only [hwrap] at ht
  rw [ht] at hs
  obtain ⟨extra, he⟩ : ∃ extra, fuel = 2 + extra := ⟨fuel - 2, by omega⟩
  refine ⟨⟨seconds - 1, ⟨[]⟩, ⟨1, []⟩, 0,
    [Effect.store seconds, Effect.post Handler.TimerTick, Effect.thread_run] ++
      [Effect.store (seconds - 1), Effect.cout (seconds - 1),
        Effect.listener Event.TimerEnded]⟩, ?_, ?_, ?_, ?_, ?_, ?_⟩
  · rw [he]
    apply run_mono
    rw [run, hs]
    simp only
    rw [run]
    rfl
  · rfl
  · simp [delivered]
  · simp
  · rfl
  · rfl

/-- Instance of C10 at a duration of 0. -/
theorem StartTimer_nonpositive_run_witness :
    ∃ r, run 2 (StartTimer 0 (TimerImpl.create 0)) = some r ∧
      r.time_remaining_ = 0 - 1 ∧
      delivered r = [Event.TimerEnded] ∧
      r.trace = [Effect.store 0, Effect.post Handler.TimerTick, Effect.thread_run,
        Effect.store (0 - 1), Effect.cout (0 - 1),
        Effect.listener Event.TimerEnded] ∧
      r.timer_ = (TimerImpl.create 0).timer_ ∧
      pending r = 0 :=
  StartTimer_nonpositive_run 0 0 2 (by decide) (by decide) (by decide)

end cpptimer
